import Mathlib

/-!
Verification development for the dictshield document/validation engine
(src/dictshield/base.py and src/dictshield/document.py).

The Python code is shallowly embedded: Python runtime values become the
inductive `Value`; raised exceptions become the `Except PyError` monad;
dictionaries become association lists with explicit update/delete (the
documented in-place mutations are modelled by returning the updated
mapping); constructed document classes become `Schema` values produced by
executable models of the two metaclass `__new__` methods.
-/

/-- A Python runtime value as it occurs in dictshield documents and inputs.
`vUUID` is a `uuid.UUID` object identified by its canonical text; `vDoc` is
an `EmbeddedDocument` instance carrying its class's computed internal-field
set and the mapping its `to_python` returns; `vObj` stands for any other
Python object (identified only by a tag, never compared equal). -/
inductive Value where
  | vNone : Value
  | vStr : String → Value
  | vInt : Int → Value
  | vBool : Bool → Value
  | vUUID : String → Value
  | vList : List Value → Value
  | vDict : List (String × Value) → Value
  | vDoc : List String → List (String × Value) → Value
  | vObj : String → Value

mutual

/-- Python `==` on the modelled values.  Numbers compare across `bool`/`int`
(CPython: `True == 1`); distinct object kinds compare unequal; two
`BaseDocument` instances compare through `__eq__`, which for embedded
documents (no `id` attribute) returns `False`. -/
def pyEq : Value → Value → Bool
  | .vNone, .vNone => true
  | .vStr a, .vStr b => a = b
  | .vInt a, .vInt b => a = b
  | .vBool a, .vBool b => a = b
  | .vInt a, .vBool b => a = (if b then 1 else 0)
  | .vBool a, .vInt b => (if a then (1 : Int) else 0) = b
  | .vUUID a, .vUUID b => a = b
  | .vList a, .vList b => pyEqList a b
  | .vDict a, .vDict b => pyEqPairs a b
  | _, _ => false

def pyEqList : List Value → List Value → Bool
  | [], [] => true
  | a :: as', b :: bs' => pyEq a b && pyEqList as' bs'
  | _, _ => false

def pyEqPairs : List (String × Value) → List (String × Value) → Bool
  | [], [] => true
  | (k1, v1) :: t1, (k2, v2) :: t2 => k1 = k2 && pyEq v1 v2 && pyEqPairs t1 t2
  | _, _ => false

end

/-- Python truthiness of the modelled values (`uuid.UUID` objects are truthy;
document instances define `__len__` but are never tested for truth in the
modelled paths, so they are treated as truthy). -/
def pyTruthy : Value → Bool
  | .vNone => false
  | .vStr s => s.length != 0
  | .vInt n => n != 0
  | .vBool b => b
  | .vUUID _ => true
  | .vList l => !l.isEmpty
  | .vDict l => !l.isEmpty
  | .vDoc _ _ => true
  | .vObj _ => true

/-- CPython object identity (`is`) between a value taken from a caller's
input mapping and a value stored in a field declaration: only interned
singletons (`None`, `True`/`False`, small ints) can be the same object when
they come from different sources. -/
def pyIs : Value → Value → Bool
  | .vNone, .vNone => true
  | .vBool a, .vBool b => a = b
  | .vInt a, .vInt b => a = b && (-5 ≤ a && a ≤ 256)
  | _, _ => false

/-- Models `value is not None`. -/
def isNotNone : Value → Bool
  | .vNone => false
  | _ => true

/-- The whitespace characters `str.strip()` removes. -/
def isPySpace (c : Char) : Bool :=
  c = ' ' || c = '\t' || c = '\n' || c = '\r' || c = '\x0b' || c = '\x0c'

/-- Models `isinstance(datum, (str, unicode)) and len(datum.strip()) == 0`: a string
strips to nothing exactly when all its characters are whitespace. -/
def isBlankStr : Value → Bool
  | .vStr s => s.data.all isPySpace
  | _ => false

/-- A raised Python exception.  `shieldEx` is `ShieldException(reason,
field_name, field_value)`; the others are the builtin exception classes
that occur in the modelled code paths. -/
inductive PyError where
  | shieldEx : String → Option String → Value → PyError
  | typeError : String → PyError
  | valueError : String → PyError
  | attributeError : String → PyError
  | keyError : String → PyError
  | assertionError : String → PyError

/-- Is the exception a `ShieldException`? (`except ShieldException` clauses). -/
def isShieldEx : PyError → Bool
  | .shieldEx _ _ _ => true
  | _ => false

/-- The tuple caught by `BaseDocument.validate`:
`except (ValueError, AttributeError, AssertionError)`. -/
def catchesInValidate : PyError → Bool
  | .valueError _ => true
  | .attributeError _ => true
  | .assertionError _ => true
  | _ => false

/-- Dictionary lookup on a string-keyed association list. -/
def alookup {α : Type} : String → List (String × α) → Option α
  | _, [] => none
  | k, (k0, v0) :: t => if k0 = k then some v0 else alookup k t

/-- Models `k in d` for a string-keyed dictionary. -/
def acontains {α : Type} (k : String) (l : List (String × α)) : Bool :=
  (alookup k l).isSome

/-- Models `d[k] = v`: replace the value at an existing key in place, else append. -/
def aupdate {α : Type} : List (String × α) → String → α → List (String × α)
  | [], k, v => [(k, v)]
  | (k0, v0) :: t, k, v => if k0 = k then (k0, v) :: t else (k0, v0) :: aupdate t k v

/-- Models `d.update(src)`: fold the entries of `src` into `d`. -/
def aupdateAll {α : Type} (d : List (String × α)) (src : List (String × α)) :
    List (String × α) :=
  src.foldl (fun acc kv => aupdate acc kv.1 kv.2) d

/-- Number of entries of `l` carrying key `k`. -/
def countKey {α : Type} (l : List (String × α)) (k : String) : Nat :=
  (l.filter (fun kv => kv.1 = k)).length

/-- Lookup in a document's `_data` store, whose keys are field names and may
be `None` (Python allows `None` as a dict key, and the auto-synthesized id
field's `field_name` is never assigned). -/
def olookup : Option String → List (Option String × Value) → Option Value
  | _, [] => none
  | k, (k0, v0) :: t => if k0 = k then some v0 else olookup k t

/-- Update in a document's `_data` store. -/
def oupdate : List (Option String × Value) → Option String → Value →
    List (Option String × Value)
  | [], k, v => [(k, v)]
  | (k0, v0) :: t, k, v => if k0 = k then (k0, v) :: t else (k0, v0) :: oupdate t k v

theorem alookup_aupdate_self {α : Type} (l : List (String × α)) (k : String) (v : α) :
    alookup k (aupdate l k v) = some v := by
  induction l with
  | nil => simp [aupdate, alookup]
  | cons h t ih =>
    obtain ⟨k0, v0⟩ := h
    by_cases hk : k0 = k
    · simp [aupdate, alookup, hk]
    · simp [aupdate, alookup, hk, ih]

theorem alookup_aupdate_ne {α : Type} (l : List (String × α)) (k k' : String) (v : α)
    (h : k' ≠ k) : alookup k' (aupdate l k v) = alookup k' l := by
  induction l with
  | nil => simp [aupdate, alookup, Ne.symm h]
  | cons hd t ih =>
    obtain ⟨k0, v0⟩ := hd
    by_cases hk : k0 = k
    · subst hk
      simp [aupdate, alookup, Ne.symm h]
    · simp [aupdate, alookup, hk, ih]

theorem acontains_aupdate_of {α : Type} (l : List (String × α)) (k k' : String) (v : α)
    (h : acontains k' l = true) : acontains k' (aupdate l k v) = true := by
  by_cases hk : k' = k
  · subst hk
    simp [acontains, alookup_aupdate_self]
  · simpa [acontains, alookup_aupdate_ne l k k' v hk] using h

theorem acontains_aupdate_self {α : Type} (l : List (String × α)) (k : String) (v : α) :
    acontains k (aupdate l k v) = true := by
  simp [acontains, alookup_aupdate_self]

theorem aupdate_not_contains {α : Type} (l : List (String × α)) (k : String) (v : α)
    (h : acontains k l = false) : aupdate l k v = l ++ [(k, v)] := by
  induction l with
  | nil => simp [aupdate]
  | cons hd t ih =>
    obtain ⟨k0, v0⟩ := hd
    by_cases hk : k0 = k
    · subst hk
      simp [acontains, alookup] at h
    · simp [acontains, alookup, hk] at h
      simp [aupdate, hk, ih (by simpa [acontains] using h)]

theorem mem_aupdate {α : Type} (l : List (String × α)) (k : String) (v : α)
    (kv : String × α) (h : kv ∈ aupdate l k v) : kv ∈ l ∨ kv = (k, v) := by
  induction l with
  | nil => simpa [aupdate] using h
  | cons hd t ih =>
    obtain ⟨k0, v0⟩ := hd
    by_cases hk : k0 = k
    · subst hk
      simp [aupdate] at h
      rcases h with h | h
      · exact Or.inr (by simp [h])
      · exact Or.inl (by simp [h])
    · simp [aupdate, hk] at h
      rcases h with h | h
      · exact Or.inl (by simp [h])
      · rcases ih h with h1 | h1
        · exact Or.inl (by simp [h1])
        · exact Or.inr h1

theorem olookup_oupdate_self (l : List (Option String × Value)) (k : Option String)
    (v : Value) : olookup k (oupdate l k v) = some v := by
  induction l with
  | nil => simp [oupdate, olookup]
  | cons h t ih =>
    obtain ⟨k0, v0⟩ := h
    by_cases hk : k0 = k
    · simp [oupdate, olookup, hk]
    · simp [oupdate, olookup, hk, ih]

theorem olookup_oupdate_ne (l : List (Option String × Value)) (k k' : Option String)
    (v : Value) (h : k' ≠ k) : olookup k' (oupdate l k v) = olookup k' l := by
  induction l with
  | nil => simp [oupdate, olookup, Ne.symm h]
  | cons hd t ih =>
    obtain ⟨k0, v0⟩ := hd
    by_cases hk : k0 = k
    · subst hk
      simp [oupdate, olookup, Ne.symm h]
    · simp [oupdate, olookup, hk, ih]

/-! Section: Field descriptors (src/dictshield/base.py) -/

/-- The optional `validation` argument of `BaseField.__init__`: the author
may pass a callable predicate or (erroneously) a non-callable object. -/
inductive CustomValidator where
  | callable : (Value → Bool) → CustomValidator
  | notCallable : CustomValidator

/-- The concrete field classes present in `base.py`: `BaseField` itself and
`UUIDField`.  (The subclasses in the absent `fields.py` module are outside
the modelled source.) -/
inductive FieldKind where
  | base : FieldKind
  | uuidKind : FieldKind

/-- A field descriptor: the attributes set by `BaseField.__init__` plus the
class tag.  `auto_fill` belongs to `UUIDField`. -/
structure BaseField where
  kind : FieldKind := .base
  uniq_field : Option String := none
  field_name : Option String := none
  required : Bool := false
  default : Value := .vNone
  validation : Option CustomValidator := none
  choices : Option (List Value) := none
  id_field : Bool := false
  auto_fill : Bool := true

/-- Python `a or b` on optional strings (`None` and `""` are falsy). -/
def pyOrOptStr (a b : Option String) : Option String :=
  match a with
  | some s => if s = "" then b else some s
  | none => b

/-- Models `BaseField.__init__`: in particular
`self.uniq_field = '_id' if id_field else uniq_field or field_name`. -/
def BaseField.init (uniq_field field_name : Option String) (required : Bool)
    (default : Value) (id_field : Bool) (validation : Option CustomValidator)
    (choices : Option (List Value)) : BaseField :=
  { kind := .base,
    uniq_field := if id_field then some "_id" else pyOrOptStr uniq_field field_name,
    field_name := field_name,
    required := required,
    default := default,
    validation := validation,
    choices := choices,
    id_field := id_field }

/-- Models `UUIDField.__init__(auto_fill=True, **kwargs)`. -/
def UUIDField.init (auto_fill : Bool) (uniq_field field_name : Option String)
    (required : Bool) (default : Value) (id_field : Bool)
    (validation : Option CustomValidator) (choices : Option (List Value)) : BaseField :=
  { BaseField.init uniq_field field_name required default id_field validation choices with
    kind := .uuidKind, auto_fill := auto_fill }

/-- Is the character a hexadecimal digit? -/
def isHexChar (c : Char) : Bool :=
  c.isDigit || (('a' ≤ c && c ≤ 'f') || ('A' ≤ c && c ≤ 'F'))

/-- Models the `uuid.UUID(hex)` constructor of the Python standard library on
a string argument: dashes are ignored and the remaining text must be 32 hex
digits, else `ValueError`.  (The `urn:`/brace forms accepted by CPython are
not exercised by this code base and are not modelled.)  Returns the
canonical 32-digit form on success. -/
def uuidParse (s : String) : Option String :=
  let h := s.data.filter (fun c => c ≠ '-')
  if h.length = 32 && h.all isHexChar then some (String.mk h) else none

/-- Models `UUIDField.validate`: accept `uuid.UUID` objects; parse strings with
`uuid.UUID(value)`, turning its `ValueError` into
`ShieldException('Not a valid UUID value', field_name, value)`.  A
non-string, non-UUID argument makes `uuid.UUID(value)` itself fail with an
exception that is not caught (`AttributeError` from `hex.replace` for most
objects, `TypeError` for `None`). -/
def UUIDField.validate (f : BaseField) (value : Value) : Except PyError Unit :=
  match value with
  | .vUUID _ => .ok ()
  | .vStr s =>
    match uuidParse s with
    | some _ => .ok ()
    | none => .error (.shieldEx "Not a valid UUID value" f.field_name value)
  | .vNone => .error (.typeError "one of the hex, bytes, bytes_le, fields, or int arguments must be given")
  | _ => .error (.attributeError "replace")

/-- Kind dispatch for the `validate` method: `BaseField.validate` is `pass`,
`UUIDField.validate` checks the value. -/
def BaseField.validate (f : BaseField) (value : Value) : Except PyError Unit :=
  match f.kind with
  | .base => .ok ()
  | .uuidKind => UUIDField.validate f value

/-- Models `BaseField._validate`: choices check, then the custom-validator check,
then the kind-specific `validate`.  NOTE the slip in the source: both
failure branches execute `raise ShieldException(<reason>)` with a single
argument, but `ShieldException.__init__` requires
`(reason, field_name, field_value)`, so constructing the exception itself
raises `TypeError` — the `ShieldException` never materializes. -/
def BaseField._validate (f : BaseField) (value : Value) : Except PyError Unit :=
  match f.choices with
  | some cs =>
    if cs.any (fun c => pyEq value c) then
      match f.validation with
      | some (.callable p) =>
        if p value then f.validate value
        else .error (.typeError "__init__() takes at least 4 arguments (2 given)")
      | some .notCallable => .error (.valueError "validation argument must be a callable.")
      | none => f.validate value
    else .error (.typeError "__init__() takes at least 4 arguments (2 given)")
  | none =>
    match f.validation with
    | some (.callable p) =>
      if p value then f.validate value
      else .error (.typeError "__init__() takes at least 4 arguments (2 given)")
    | some .notCallable => .error (.valueError "validation argument must be a callable.")
    | none => f.validate value

/-! Section: Whole-document validation (BaseDocument.validate) -/

/-- Models `BaseDocument.validate`, applied to the list of
`(field, getattr(self, name))` pairs it builds: for each pair, a value that
`is not None` and `!= ''` goes through `field._validate`, with
`(ValueError, AttributeError, AssertionError)` converted to
`ShieldException('Invalid value', field_name, value)` (other exceptions,
including `ShieldException` and `TypeError`, propagate unchanged); an
empty/absent value of a required field raises
`ShieldException('Required field missing', ...)`.  The first failure
aborts the pass. -/
def BaseDocument.validate : List (BaseField × Value) → Except PyError Unit
  | [] => .ok ()
  | (field, value) :: rest =>
    if isNotNone value && !(pyEq value (.vStr "")) then
      match BaseField._validate field value with
      | .ok _ => BaseDocument.validate rest
      | .error e =>
        if catchesInValidate e then
          .error (.shieldEx "Invalid value" field.field_name value)
        else .error e
    else if field.required then
      .error (.shieldEx "Required field missing" field.field_name value)
    else BaseDocument.validate rest

/-- Does one `(field, value)` pair pass `BaseDocument.validate` without
raising?  (Used to state that validation is unaffected by earlier passing
fields.) -/
def docFieldPasses (fv : BaseField × Value) : Bool :=
  if isNotNone fv.2 && !(pyEq fv.2 (.vStr "")) then
    match BaseField._validate fv.1 fv.2 with
    | .ok _ => true
    | .error _ => false
  else !fv.1.required

/-! Section: Schema composition (DocumentMetaclass / TopLevelDocumentMetaclass) -/

/-- The meta options an author writes in a class's `meta` dict (only the
keys the metaclasses read). -/
structure MetaDecl where
  allow_inheritance : Option Bool := none
  mixin : Bool := false
  collection : Option String := none

/-- The resolved `_meta` dict frozen onto a composed document class. -/
structure MetaInfo where
  allow_inheritance : Bool := true
  mixin : Bool := false
  collection : Option String := none
  id_field : Option String := none

/-- A composed document class: the attributes the metaclasses freeze onto
the type. -/
structure Schema where
  _class_name : String
  _superclasses : List String
  _fields : List (String × BaseField)
  meta : MetaInfo

/-- Append a name to a key set if absent (dict-key semantics for the
`_superclasses` mapping, of which only the keys matter here). -/
def insertUniqueStr (l : List String) (s : String) : List String :=
  if l.contains s then l else l ++ [s]

/-- Models `superclasses.update(base._superclasses)` (keys only). -/
def mergeSupers (l : List String) (src : List String) : List String :=
  src.foldl insertUniqueStr l

/-- Models `'.'.join(...)`. -/
def joinDot : List String → String
  | [] => ""
  | [s] => s
  | s :: rest => s ++ "." ++ joinDot rest

/-- Accumulator of the per-base loop in `DocumentMetaclass.__new__`. -/
structure ComposeAcc where
  doc_fields : List (String × BaseField)
  class_name : List String
  supers : List String
  simple_class : Bool

/-- One iteration of the base-class loop of `DocumentMetaclass.__new__`:
merge the base's fields, append its class name and superclasses, reject a
base with `allow_inheritance == False`, and for a mixin base pop its name
back off the chain and out of the superclass map. -/
def composeBase (acc : ComposeAcc) (b : Schema) : Except PyError ComposeAcc :=
  let acc1 : ComposeAcc :=
    { doc_fields := aupdateAll acc.doc_fields b._fields,
      class_name := acc.class_name ++ [b._class_name],
      supers := mergeSupers (insertUniqueStr acc.supers b._class_name) b._superclasses,
      simple_class := acc.simple_class }
  if b.meta.allow_inheritance = false then
    .error (.valueError "Document may not be subclassed")
  else
    let acc2 := { acc1 with simple_class := false }
    if b.meta.mixin then
      .ok { acc2 with class_name := acc2.class_name.dropLast,
                      supers := acc2.supers.filter (fun s => s ≠ b._class_name) }
    else .ok acc2

/-- The per-attribute assignment in `DocumentMetaclass.__new__`:
`attr_value.field_name = attr_name; if not attr_value.uniq_field:
attr_value.uniq_field = attr_name`. -/
def assignFieldName (k : String) (f : BaseField) : BaseField :=
  { f with field_name := some k, uniq_field := pyOrOptStr f.uniq_field (some k) }

/-- Fold the locally declared field attributes into the merged field dict
(`doc_fields[attr_name] = attr_value`), so a local redeclaration overrides
an inherited descriptor. -/
def applyAttrs (d : List (String × BaseField)) :
    List (String × BaseField) → List (String × BaseField)
  | [] => d
  | (k, f) :: rest => applyAttrs (aupdate d k (assignFieldName k f)) rest

/-- Models `DocumentMetaclass.__new__` for a user-defined class: `name` is the new
class's name, `bases` the already-composed base document classes (the
abstract `Document`/`EmbeddedDocument` roots contribute neither fields nor
meta and are represented by the empty list), `attrFields` the field
attributes declared on the class body, `dm` its declared meta dict. -/
def documentMetaclassNew (name : String) (bases : List Schema)
    (attrFields : List (String × BaseField)) (dm : MetaDecl) :
    Except PyError Schema :=
  match bases.foldlM composeBase
      { doc_fields := [], class_name := [name], supers := [], simple_class := true } with
  | .error e => .error e
  | .ok acc =>
    let allow := dm.allow_inheritance.getD true
    if !acc.simple_class && !allow then
      .error (.valueError "Only direct subclasses of Document may set allow_inheritance to False")
    else
      .ok { _class_name := joinDot acc.class_name.reverse,
            _superclasses := acc.supers,
            _fields := applyAttrs acc.doc_fields attrFields,
            meta := { allow_inheritance := allow, mixin := dm.mixin,
                      collection := dm.collection, id_field := none } }

/-- The id-field scan of `TopLevelDocumentMetaclass.__new__`: each field
flagged `id_field` must agree with the current id field name, else
`ValueError('Cannot override id_field')`. -/
def scanIdField (cur : Option String) :
    List (String × BaseField) → Except PyError (Option String)
  | [] => .ok cur
  | (k, f) :: rest =>
    if f.id_field then
      match cur with
      | some c =>
        if c ≠ k then .error (.valueError "Cannot override id_field")
        else scanIdField (some k) rest
      | none => scanIdField (some k) rest
    else scanIdField cur rest

/-- The field the metaclass synthesizes when no id field exists:
`UUIDField(uniq_field='_id')`.  Note its `field_name` is never assigned
(the attribute loop of `DocumentMetaclass.__new__` has already run), so it
stays `None`. -/
def synthesizedIdField : BaseField :=
  UUIDField.init true (some "_id") none false .vNone false none none

/-- Models `TopLevelDocumentMetaclass.__new__` for a user-defined class: inherit
collection/id-field metadata from the bases, compose via
`DocumentMetaclass.__new__`, then resolve the identity field, synthesizing
`_fields['id'] = UUIDField(uniq_field='_id')` when none is declared. -/
def topLevelDocumentMetaclassNew (name : String) (bases : List Schema)
    (attrFields : List (String × BaseField)) (dm : MetaDecl) :
    Except PyError Schema :=
  let inh := bases.foldl
    (fun (p : String × Option String) b =>
      (b.meta.collection.getD p.1,
       match p.2 with
       | some i => some i
       | none => b.meta.id_field))
    (name.toLower, none)
  let collection := dm.collection.getD inh.1
  match documentMetaclassNew name bases attrFields dm with
  | .error e => .error e
  | .ok s =>
    match scanIdField inh.2 s._fields with
    | .error e => .error e
    | .ok (some c) =>
      .ok { s with meta := { s.meta with collection := some collection, id_field := some c } }
    | .ok none =>
      .ok { s with
            _fields := aupdate s._fields "id" synthesizedIdField,
            meta := { s.meta with collection := some collection, id_field := some "id" } }

/-! Section: Document instances: construction, field access, export -/

/-- A document instance's `_data` dict.  Keys are the owning field's
`field_name`, which for the synthesized id field is `None`. -/
abbrev DocData := List (Option String × Value)

/-- Models `BaseField.__get__`: read `_data[field_name]`, falling back to the
default when missing or `None`.  (Callable defaults do not occur on the
modelled field kinds and are not modelled.) -/
def fieldGet (d : DocData) (f : BaseField) : Value :=
  match olookup f.field_name d with
  | some v => if isNotNone v then v else f.default
  | none => f.default

/-- The fresh `uuid.uuid4()` value produced at generation step `g`. -/
def uuidGen (g : Nat) : String := "uuid4-" ++ toString g

/-- Models `__set__` for both field kinds, threading the uuid4 generator state:
`BaseField.__set__` stores the raw value; `UUIDField.__set__` replaces a
falsy value with a fresh UUID and coerces a string through `uuid.UUID`,
whose `ValueError` on a malformed string propagates. -/
def fieldSet (f : BaseField) (d : DocData) (v : Value) (g : Nat) :
    Except PyError (DocData × Nat) :=
  match f.kind with
  | .base => .ok (oupdate d f.field_name v, g)
  | .uuidKind =>
    let p := if pyTruthy v then (v, g) else (Value.vUUID (uuidGen g), g + 1)
    match p.1 with
    | .vStr s =>
      match uuidParse s with
      | some canon => .ok (oupdate d f.field_name (.vUUID canon), p.2)
      | none => .error (.valueError "badly formed hexadecimal UUID string")
    | v1 => .ok (oupdate d f.field_name v1, p.2)

/-- The default-assignment loop of `BaseDocument.__init__`: for every field,
read its current value (resolving the default) and assign it back through
the descriptor. -/
def initDefaults : List (String × BaseField) → DocData → Nat →
    Except PyError (DocData × Nat)
  | [], d, g => .ok (d, g)
  | (_, f) :: rest, d, g =>
    match fieldSet f d (fieldGet d f) g with
    | .error e => .error e
    | .ok (d', g') => initDefaults rest d' g'

/-- Resolve `setattr(self, k, ...)`'s target descriptor: the class attribute
`k` is the field of the same name, or — via the `new_class.id = field`
alias installed by `TopLevelDocumentMetaclass` — the designated id field
when `k` is `"id"`. -/
def resolveFieldAttr (s : Schema) (k : String) : Option BaseField :=
  match alookup k s._fields with
  | some f => some f
  | none =>
    if k = "id" then
      match s.meta.id_field with
      | some fname => alookup fname s._fields
      | none => none
    else none

/-- The seed-assignment loop of `BaseDocument.__init__`: rename `_id` to
`id`, assign through the matching descriptor, and silently skip keys that
match no field (a plain attribute assignment with no effect on `_data`). -/
def applySeed (s : Schema) : List (String × Value) → DocData → Nat →
    Except PyError (DocData × Nat)
  | [], d, g => .ok (d, g)
  | (k0, v) :: rest, d, g =>
    let k := if k0 = "_id" then "id" else k0
    match resolveFieldAttr s k with
    | some f =>
      match fieldSet f d v g with
      | .error e => .error e
      | .ok (d', g') => applySeed s rest d' g'
    | none => applySeed s rest d g

/-- Models `BaseDocument.__init__(**values)`: defaults first, then the seed
entries over them. -/
def BaseDocument.init (s : Schema) (seed : List (String × Value)) (g : Nat) :
    Except PyError (DocData × Nat) :=
  match initDefaults s._fields [] g with
  | .error e => .error e
  | .ok (d, g') => applySeed s seed d g'

/-- The key a field exports under: its `uniq_field`.  Metaclass-composed
fields always carry one (`assignFieldName` backfills it, and the
synthesized id field is created with `'_id'`), so the fallback for a bare
`None` is never exercised on composed schemas. -/
def fieldUniqKey (f : BaseField) : String := f.uniq_field.getD ""

/-- One step of the field loop of `BaseDocument._to_fields` (with the
`to_python` converter, `for_python`, which is the identity on both modelled
kinds): a non-`None` field value is written under the field's
`uniq_field`. -/
def exportField (d : DocData) (acc : List (String × Value))
    (kf : String × BaseField) : List (String × Value) :=
  let value := fieldGet d kf.2
  if isNotNone value then aupdate acc (fieldUniqKey kf.2) value else acc

/-- The `_cls`/`_types` step of `_to_fields`: added unless the class set
`allow_inheritance` to `False`. -/
def exportCls (s : Schema) (base : List (String × Value)) : List (String × Value) :=
  if s.meta.allow_inheritance then
    aupdate (aupdate base "_cls" (.vStr s._class_name)) "_types"
      (.vList ((s._superclasses ++ [s._class_name]).map .vStr))
  else base

/-- The final step of `_to_fields`: a falsy `_id` entry is deleted. -/
def exportTrim (data : List (String × Value)) : List (String × Value) :=
  match alookup "_id" data with
  | some v => if pyTruthy v then data else data.filter (fun kv => kv.1 ≠ "_id")
  | none => data

/-- Models `BaseDocument._to_fields` with the `to_python` converter: export each
non-`None` field value under its `uniq_field`, add `_cls`/`_types` unless
inheritance is disabled, and drop a falsy `_id`. -/
def _to_fields (s : Schema) (d : DocData) : List (String × Value) :=
  exportTrim (exportCls s (s._fields.foldl (exportField d) []))

/-- Models `BaseDocument.to_python()`. -/
def to_python (s : Schema) (d : DocData) : List (String × Value) := _to_fields s d

/-! Section: Instance equality (BaseDocument.__eq__) -/

/-- What `BaseDocument.__eq__` observes about an operand: its class name,
the names of the classes it is also an instance of, whether `hasattr(.,
'id')` holds, and the resolved `id` value when it does. -/
structure PyObj where
  clsName : String
  ancestors : List String
  hasId : Bool
  idVal : Value

/-- Models `isinstance(obj, cls)`: the object's own class or any ancestor. -/
def isinstanceOf (obj : PyObj) (cls : String) : Bool :=
  obj.clsName = cls || obj.ancestors.contains cls

/-- Models `BaseDocument.__eq__`: `isinstance(other, self.__class__) and
hasattr(other, 'id')`, then `self.id == other.id`.  Reading `self.id` on an
instance whose class has no `id` attribute raises `AttributeError`. -/
def BaseDocument.eq (a b : PyObj) : Except PyError Bool :=
  if isinstanceOf b a.clsName && b.hasId then
    if a.hasId then .ok (pyEq a.idVal b.idVal) else .error (.attributeError "id")
  else .ok false

/-! Section: SafeableMixin: validation engine (src/dictshield/document.py) -/

/-- Models `SafeableMixin._internal_fields`. -/
def _internal_fields : List String := ["_id", "id", "_cls", "_types"]

/-- Models `SafeableMixin._get_internal_fields`: the union with the class's
`_private_fields` (membership-tested, so list concatenation models the
set union). -/
def _get_internal_fields (private_fields : List String) : List String :=
  _internal_fields ++ private_fields

/-- The `if k is 'id': k = '_id'` rename inside `_validate_helper`
(CPython interns these identifier strings, so `is` behaves as equality). -/
def renameIdKey (k : String) : String := if k = "id" then "_id" else k

/-- One iteration of the field loop of `_validate_helper`, for the field
declared under `k0`.  `.ok none` means no failure, `.ok (some e)` a failure
passed to `handle_exception` (collected or re-raised by the caller), and
`.error e` an exception no handler catches: `KeyError` from `values[k]`
when the inspector selects an absent key, or a non-`ShieldException` from
`validate`. -/
def fieldResult (internal : List String) (inspector : String → BaseField → Bool)
    (values : List (String × Value)) (k0 : String) (f : BaseField) :
    Except PyError (Option PyError) :=
  let k := renameIdKey k0
  if internal.contains k && acontains k values &&
      !(pyIs ((alookup k values).getD .vNone) f.default) then
    .ok (some (.shieldEx "Overwrite of internal fields attempted" (some k) (.vObj "field")))
  else if inspector k f then
    match alookup k values with
    | none => .error (.keyError k)
    | some datum =>
      if isNotNone datum = false then .ok none
      else if isBlankStr datum then .ok none
      else
        match BaseField.validate f datum with
        | .ok _ => .ok none
        | .error e => if isShieldEx e then .ok (some e) else .error e
  else .ok none

/-- The field loop of `_validate_helper`: with `validate_all` the handled
failures accumulate in order; without it the first handled failure is
re-raised. -/
def runFields (internal : List String) (inspector : String → BaseField → Bool)
    (values : List (String × Value)) (validate_all : Bool) :
    List (String × BaseField) → List PyError → Except PyError (List PyError)
  | [], acc => .ok acc
  | (k0, f) :: rest, acc =>
    match fieldResult internal inspector values k0 f with
    | .error e => .error e
    | .ok none => runFields internal inspector values validate_all rest acc
    | .ok (some e) =>
      if validate_all then runFields internal inspector values validate_all rest (acc ++ [e])
      else .error e

/-- The rogue-field deletion at the end of `_validate_helper`: when the
accumulated `class_fields` list is non-empty, delete from the input every
key outside it (`palins = data_fields - set(class_fields)`). -/
def stripRogues (class_fields : List String) (values : List (String × Value)) :
    List (String × Value) :=
  if class_fields.isEmpty then values
  else values.filter (fun kv => class_fields.contains kv.1)

/-- Models `SafeableMixin._validate_helper`.  The caller's in-place mutation of
`values` is modelled by returning the post-call mapping alongside the
aggregated exception list (empty when `validate_all` is off and the call
returns `True`); a raised exception is `.error`, in which case the input
mapping was not yet mutated. -/
def _validate_helper (fields : List (String × BaseField)) (internal : List String)
    (inspector : String → BaseField → Bool) (values : List (String × Value))
    (validate_all : Bool) (delete_rogues : Bool) :
    Except PyError (List (String × Value) × List PyError) :=
  let class_fields := if delete_rogues then fields.map (fun kf => renameIdKey kf.1) else []
  match runFields internal inspector values validate_all fields [] with
  | .error e => .error e
  | .ok excs => .ok (stripRogues class_fields values, excs)

/-- Models `SafeableMixin.validate_class_fields`, for a class with field dict
`fields` and `_private_fields` list `private_fields`:
`shouldCheck = field.required or key in values`, `delete_rogues` left at
its default `True`. -/
def validate_class_fields (fields : List (String × BaseField))
    (private_fields : List String) (values : List (String × Value))
    (validate_all : Bool) : Except PyError (List (String × Value) × List PyError) :=
  _validate_helper fields (_get_internal_fields private_fields)
    (fun k f => f.required || acontains k values) values validate_all true

/-- Models `SafeableMixin.validate_class_partial`: `shouldCheck = key in values`,
`delete_rogues` left at its default `True`. -/
def validate_class_partial (fields : List (String × BaseField))
    (private_fields : List String) (values : List (String × Value))
    (validate_all : Bool) : Except PyError (List (String × Value) × List PyError) :=
  _validate_helper fields (_get_internal_fields private_fields)
    (fun k _ => acontains k values) values validate_all true

/-! Section: SafeableMixin: owner-safe projection -/

/-- Is the value an `EmbeddedDocument` instance? -/
def isEmbeddedDoc : Value → Bool
  | .vDoc _ _ => true
  | _ => false

mutual

/-- The `handle_doc` blacklist loop of `make_ownersafe`: delete keys in the
internal-field set; replace an embedded-document value by its own
owner-safe projection; map a non-empty list headed by an embedded document
elementwise; `v[0]` on a non-empty plain dict raises `KeyError(0)` (its
keys are strings). -/
def ownersafeEntries (internal : List String) :
    List (String × Value) → Except PyError (List (String × Value))
  | [] => .ok []
  | (k, v) :: rest =>
    if internal.contains k then ownersafeEntries internal rest
    else
      match ownersafeValue v with
      | .error e => .error e
      | .ok v' =>
        match ownersafeEntries internal rest with
        | .error e => .error e
        | .ok rest' => .ok ((k, v') :: rest')

/-- Owner-safe treatment of a single retained value. -/
def ownersafeValue : Value → Except PyError Value
  | .vDoc i d =>
    match ownersafeEntries i d with
    | .error e => .error e
    | .ok d' => .ok (.vDict d')
  | .vList [] => .ok (.vList [])
  | .vList (x :: t) =>
    if isEmbeddedDoc x then
      match ownersafeList (x :: t) with
      | .error e => .error e
      | .ok l' => .ok (.vList l')
    else .ok (.vList (x :: t))
  | .vDict [] => .ok (.vDict [])
  | .vDict (_ :: _) => .error (.keyError "0")
  | v => .ok v

/-- Models `[doc.make_ownersafe(doc.to_python()) for doc in v]`: every element
must be an embedded document (otherwise `doc.to_python()` raises
`AttributeError`). -/
def ownersafeList : List Value → Except PyError (List Value)
  | [] => .ok []
  | .vDoc i d :: t =>
    match ownersafeEntries i d with
    | .error e => .error e
    | .ok d' =>
      match ownersafeList t with
      | .error e => .error e
      | .ok t' => .ok (.vDict d' :: t')
  | _ :: _ => .error (.attributeError "to_python")

end

/-- Models `SafeableMixin.make_ownersafe` applied to a plain mapping (the
single-dict branch of `_safe_data_from_input`), for a class whose computed
internal-field set is `internal_fields`. -/
def make_ownersafe (internal_fields : List String)
    (doc_dict : List (String × Value)) : Except PyError (List (String × Value)) :=
  ownersafeEntries internal_fields doc_dict

/-! Section: Supporting lemmas for the validation-engine theorems -/

theorem runFields_all_ok (internal : List String) (insp : String → BaseField → Bool)
    (values : List (String × Value)) (va : Bool) :
    ∀ (fields : List (String × BaseField)) (acc : List PyError),
      (∀ kf ∈ fields, fieldResult internal insp values kf.1 kf.2 = .ok none) →
      runFields internal insp values va fields acc = .ok acc := by
  intro fields
  induction fields with
  | nil => intro acc _; rfl
  | cons hd rest ih =>
    intro acc h
    obtain ⟨k0, f⟩ := hd
    have hh : fieldResult internal insp values k0 f = .ok none := h (k0, f) (by simp)
    simp only [runFields, hh]
    exact ih acc (fun kf hkf => h kf (by simp [hkf]))

theorem alookup_filter_none (cf : List String) (l : List (String × Value)) (k : String)
    (h : cf.contains k = false) :
    alookup k (l.filter (fun kv => cf.contains kv.1)) = none := by
  induction l with
  | nil => rfl
  | cons hd t ih =>
    obtain ⟨k0, v0⟩ := hd
    rw [List.filter_cons]
    cases hc : cf.contains k0 with
    | true =>
      have hne : k0 ≠ k := by
        intro heq
        rw [heq, h] at hc
        exact Bool.noConfusion hc
      simp only [hc, if_true, alookup, if_neg hne]
      exact ih
    | false =>
      simp only [hc, Bool.false_eq_true, if_false]
      exact ih

theorem alookup_filter_keep (cf : List String) (l : List (String × Value)) (k : String)
    (h : cf.contains k = true) :
    alookup k (l.filter (fun kv => cf.contains kv.1)) = alookup k l := by
  induction l with
  | nil => rfl
  | cons hd t ih =>
    obtain ⟨k0, v0⟩ := hd
    rw [List.filter_cons]
    by_cases hk : k0 = k
    · subst hk
      simp only [h, if_true, alookup, if_pos rfl]
    · cases hc : cf.contains k0 with
      | true =>
        simp only [hc, if_true, alookup, if_neg hk]
        exact ih
      | false =>
        simp only [hc, Bool.false_eq_true, if_false, alookup, if_neg hk]
        exact ih

/-! Section: C1 — unknown-field stripping by the partial validator -/

/-- A `UUIDField` declared as attribute `u` on a document class. -/
def exUuidField : BaseField :=
  { kind := .uuidKind, uniq_field := some "u", field_name := some "u" }

/-- C1 counterexample: the claim asserts that for EVERY input containing
unknown keys the stripping-enabled partial validator deletes them and
returns success.  But with the schema's only field a `UUIDField` named
`u`, the input mapping with `u = "zzz"` (not a UUID) and the unknown key
`bogus` makes the default fail-fast call raise the field's
`ShieldException` before the stripping step runs: the call does not return
success and `bogus` is not deleted. -/
theorem C1_strip_cx :
    validate_class_partial [("u", exUuidField)] []
      [("u", .vStr "zzz"), ("bogus", .vInt 1)] false =
      .error (.shieldEx "Not a valid UUID value" (some "u") (.vStr "zzz")) := by
  rfl

/-- C1 (amended): whenever the field loop of the partial validator finishes
with no failure on any declared field, the stripping-enabled partial
validator (its default rogue-field deletion on) returns success and the
caller's mapping ends up with every key outside the declared (id-renamed)
field-key list deleted in place; in particular every unknown key of the
input is gone from the result. -/
theorem C1_strip_amended (fields : List (String × BaseField)) (priv : List String)
    (values : List (String × Value))
    (hall : ∀ kf ∈ fields,
      fieldResult (_get_internal_fields priv) (fun k _ => acontains k values)
        values kf.1 kf.2 = .ok none) :
    validate_class_partial fields priv values false =
      .ok (stripRogues (fields.map (fun kf => renameIdKey kf.1)) values, []) ∧
    (fields ≠ [] → ∀ k v, (k, v) ∈ values →
      (fields.map (fun kf => renameIdKey kf.1)).contains k = false →
      alookup k (stripRogues (fields.map (fun kf => renameIdKey kf.1)) values) = none) := by
  constructor
  · unfold validate_class_partial _validate_helper
    rw [runFields_all_ok _ _ _ _ fields [] hall]
    rfl
  · intro hne k v _ hout
    unfold stripRogues
    have hmapne : (fields.map (fun kf => renameIdKey kf.1)).isEmpty = false := by
      cases fields with
      | nil => exact absurd rfl hne
      | cons hd t => simp
    rw [hmapne]
    simp only [Bool.false_eq_true, if_false]
    exact alookup_filter_none _ values k hout

/-- A plain field declared as attribute `name`. -/
def exNameField : BaseField := { field_name := some "name", uniq_field := some "name" }

/-- C1 witness: the claim's own example — input with `name = "x"` and the
unknown key `bogus` against a schema whose only field is `name` — loses
`bogus` and validates successfully. -/
theorem C1_strip_amended_witness :
    validate_class_partial [("name", exNameField)] []
      [("name", .vStr "x"), ("bogus", .vInt 1)] false =
      .ok ([("name", .vStr "x")], []) := by
  have h := (C1_strip_amended [("name", exNameField)] []
    [("name", .vStr "x"), ("bogus", .vInt 1)]
    (by
      intro kf hkf
      rw [List.mem_singleton] at hkf
      subst hkf
      rfl)).1
  exact h

/-! Section: C3 — choices/custom-validator failures in `BaseField._validate` -/

/-- A field with `choices=['red', 'blue']`. -/
def exChoicesField : BaseField :=
  { field_name := some "color", uniq_field := some "color",
    choices := some [.vStr "red", .vStr "blue"] }

/-- A field with a custom validator that rejects everything. -/
def exCustomField : BaseField :=
  { field_name := some "flag", uniq_field := some "flag",
    validation := some (.callable (fun _ => false)) }

/-- C3 (code bug): on a value outside the choices set — and likewise on a
custom-validator rejection — `_validate` does NOT fail with the
`ShieldException` (FieldInvalid) the spec describes: the source constructs
`ShieldException(<reason>)` with one argument while its `__init__` requires
`(reason, field_name, field_value)`, so the raise statement itself dies
with `TypeError`, which is not a `ShieldException`. -/
theorem C3_choices_TypeError :
    BaseField._validate exChoicesField (.vStr "green") =
      .error (.typeError "__init__() takes at least 4 arguments (2 given)") ∧
    BaseField._validate exCustomField (.vStr "x") =
      .error (.typeError "__init__() takes at least 4 arguments (2 given)") ∧
    isShieldEx (.typeError "__init__() takes at least 4 arguments (2 given)") = false := by
  exact ⟨rfl, rfl, rfl⟩

/-! Section: C7 — instance equality -/

/-- C7 (amended): `a == b` holds exactly when `b` is an instance of `a`'s
class (that class itself or a subclass — NOT necessarily the same concrete
type), `b`'s class exposes an `id` attribute, `a`'s `id` resolves, and the
two identity values compare equal; and an operand whose class lacks an
`id` attribute never compares equal on the right. -/
theorem C7_eq_amended (a b : PyObj) :
    (BaseDocument.eq a b = .ok true ↔
      (isinstanceOf b a.clsName = true ∧ b.hasId = true ∧ a.hasId = true ∧
        pyEq a.idVal b.idVal = true)) ∧
    (b.hasId = false → BaseDocument.eq a b = .ok false) := by
  cases hbi : isinstanceOf b a.clsName <;> cases hbh : b.hasId <;>
    cases hah : a.hasId <;> simp [BaseDocument.eq, hbi, hbh, hah]

/-- A top-level document class `A` and an instance of it. -/
def exObjA : PyObj :=
  { clsName := "A", ancestors := ["Document"], hasId := true, idVal := .vUUID "u1" }

/-- An instance of `B`, a subclass of `A`, with the same identity value. -/
def exObjB : PyObj :=
  { clsName := "B", ancestors := ["A", "Document"], hasId := true, idVal := .vUUID "u1" }

/-- C7 counterexample: an `A` instance compares equal to a `B` instance
(`B` a subclass of `A`) with the same identity value, although the two are
not the same concrete type — `__eq__` uses `isinstance`, so the claim's
"same concrete type iff" fails (and the relation is not even symmetric:
the reversed comparison is false). -/
theorem C7_eq_cx :
    BaseDocument.eq exObjA exObjB = .ok true ∧
    exObjA.clsName ≠ exObjB.clsName ∧
    BaseDocument.eq exObjB exObjA = .ok false := by
  exact ⟨rfl, by decide, rfl⟩

/-! Section: C8 — required field absent from the input -/

/-- A required plain field declared as attribute `name`. -/
def exRequiredField : BaseField :=
  { required := true, field_name := some "name", uniq_field := some "name" }

/-- C8 (code bug): full-mode validation with a required field absent from
the input crashes with `KeyError` — `shouldCheck` selects the field
(`field.required or k in values`) and the engine then evaluates
`values[k]` unconditionally — instead of producing the required-field
validation failure the spec describes.  The crash happens in aggregate
mode too (nothing catches `KeyError`). -/
theorem C8_required_absent_KeyError :
    validate_class_fields [("name", exRequiredField)] [] [] false =
      .error (.keyError "name") ∧
    validate_class_fields [("name", exRequiredField)] [] [] true =
      .error (.keyError "name") := by
  exact ⟨rfl, rfl⟩


/-! Section: Evaluation lemmas for one engine iteration -/

theorem fieldResult_ok_of_validate (internal : List String)
    (insp : String → BaseField → Bool) (values : List (String × Value))
    (k0 : String) (f : BaseField) (d : Value)
    (hguard : internal.contains (renameIdKey k0) = false)
    (hinsp : insp (renameIdKey k0) f = true)
    (hlook : alookup (renameIdKey k0) values = some d)
    (hd1 : isNotNone d = true) (hd2 : isBlankStr d = false)
    (hval : BaseField.validate f d = .ok ()) :
    fieldResult internal insp values k0 f = .ok none := by
  simp only [fieldResult, hguard, Bool.false_and, Bool.false_eq_true, if_false,
    hinsp, if_true, hlook, hd1, Bool.true_eq_false, hd2, hval]

theorem fieldResult_some_of_shieldEx (internal : List String)
    (insp : String → BaseField → Bool) (values : List (String × Value))
    (k0 : String) (f : BaseField) (d : Value) (e : PyError)
    (hguard : internal.contains (renameIdKey k0) = false)
    (hinsp : insp (renameIdKey k0) f = true)
    (hlook : alookup (renameIdKey k0) values = some d)
    (hd1 : isNotNone d = true) (hd2 : isBlankStr d = false)
    (hval : BaseField.validate f d = .error e) (hse : isShieldEx e = true) :
    fieldResult internal insp values k0 f = .ok (some e) := by
  simp only [fieldResult, hguard, Bool.false_and, Bool.false_eq_true, if_false,
    hinsp, if_true, hlook, hd1, Bool.true_eq_false, hd2, hval, hse]

/-- Success of `validate_class_partial` determines the returned mapping:
it is the input with the rogue keys stripped. -/
theorem validate_class_partial_ok_inv (fields : List (String × BaseField))
    (priv : List String) (values values' : List (String × Value))
    (va : Bool) (excs : List PyError)
    (hok : validate_class_partial fields priv values va = .ok (values', excs)) :
    values' = stripRogues (fields.map (fun kf => renameIdKey kf.1)) values := by
  simp only [ validate_class_partial, _validate_helper, if_true] at hok
  rcases hr : runFields (_get_internal_fields priv)
      (fun k _ => acontains k values) values va fields [] with e | ex
  · rw [hr] at hok
    exact absurd hok (by simp)
  · rw [hr] at hok
    simp only [Except.ok.injEq, Prod.mk.injEq] at hok
    exact hok.1.symm

/-! Section: C10 — the `id` to `_id` rename during the engine scan -/

theorem renameIdKey_ne_id (k : String) : renameIdKey k ≠ "id" := by
  unfold renameIdKey
  by_cases h : k = "id"
  · simp [h]
  · simp [h]

/-- C10: because the field scan replaces the declared name `id` by `_id`,
the rogue-deletion step of a (successful) stripping-enabled partial
validation deletes a supplied `id` key from the caller's mapping as if it
were unknown — even though `id` is a declared field — while a supplied
`_id` key survives the stripping step. -/
theorem C10_id_rename_strip (fields : List (String × BaseField)) (priv : List String)
    (values values' : List (String × Value)) (excs : List PyError)
    (hid : "id" ∈ fields.map Prod.fst)
    (hok : validate_class_partial fields priv values false = .ok (values', excs)) :
    alookup "id" values' = none ∧
    (acontains "_id" values = true → acontains "_id" values' = true) := by
  have hv := validate_class_partial_ok_inv fields priv values values' false excs hok
  have hcfne : (fields.map (fun kf => renameIdKey kf.1)).isEmpty = false := by
    cases fields with
    | nil => simp at hid
    | cons hd t => simp
  have hnotin : (fields.map (fun kf => renameIdKey kf.1)).contains "id" = false := by
    cases hc : (fields.map (fun kf => renameIdKey kf.1)).contains "id" with
    | false => rfl
    | true =>
      have hmem : "id" ∈ fields.map (fun kf => renameIdKey kf.1) := by
        simpa using hc
      rw [List.mem_map] at hmem
      obtain ⟨kf, _, heq⟩ := hmem
      exact absurd heq (renameIdKey_ne_id kf.1)
  have hin : (fields.map (fun kf => renameIdKey kf.1)).contains "_id" = true := by
    have hmem : "_id" ∈ fields.map (fun kf => renameIdKey kf.1) := by
      rw [List.mem_map] at hid
      obtain ⟨kf, hkf, heq⟩ := hid
      rw [List.mem_map]
      exact ⟨kf, hkf, by rw [renameIdKey, heq]; rfl⟩
    simpa using hmem
  constructor
  · rw [hv]
    unfold stripRogues
    rw [hcfne]
    simp only [Bool.false_eq_true, if_false]
    exact alookup_filter_none _ values "id" hnotin
  · intro hcont
    rw [hv]
    unfold stripRogues
    rw [hcfne]
    simp only [Bool.false_eq_true, if_false]
    unfold acontains at hcont ⊢
    rw [alookup_filter_keep _ values "_id" hin]
    exact hcont

/-- C10 witness: against a schema declaring the (synthesized) field `id`,
an input supplying both `id` and a default-valued `_id` validates, loses
`id`, and keeps `_id`. -/
theorem C10_id_rename_strip_witness :
    alookup "id" [("_id", Value.vNone)] = none ∧
    (acontains "_id" [("id", Value.vStr "abc"), ("_id", Value.vNone)] = true →
      acontains "_id" [("_id", Value.vNone)] = true) := by
  exact C10_id_rename_strip [("id", synthesizedIdField)] []
    [("id", .vStr "abc"), ("_id", .vNone)] [("_id", .vNone)] []
    (by simp) rfl

/-! Section: C9 — the engine calls `validate`, never `_validate` -/

/-- C9: the validation-engine helpers run only the field's kind-specific
`validate` on a supplied value — never the `_validate` wrapper — so a
non-empty value that the wrapper would reject (violating the choices set
or the custom validator, hypothesis `hrej`) passes both helpers with no
failure recorded, in full and in partial mode. -/
theorem C9_engine_bypasses_wrapper (k : String) (f : BaseField) (d : Value)
    (priv : List String)
    (hk1 : k ≠ "id") (hk2 : (_get_internal_fields priv).contains k = false)
    (hd1 : isNotNone d = true) (hd2 : isBlankStr d = false)
    (hkind : BaseField.validate f d = .ok ())
    (_hrej : ∃ e, BaseField._validate f d = .error e) :
    validate_class_fields [(k, f)] priv [(k, d)] false = .ok ([(k, d)], []) ∧
    validate_class_partial [(k, f)] priv [(k, d)] false = .ok ([(k, d)], []) := by
  have hrn : renameIdKey k = k := by
    unfold renameIdKey
    rw [if_neg hk1]
  have hlook : alookup (renameIdKey k) [(k, d)] = some d := by
    rw [hrn]
    unfold alookup
    rw [if_pos rfl]
  have hcont : acontains k [(k, d)] = true := by
    unfold acontains alookup
    rw [if_pos rfl]
    rfl
  have hguard : (_get_internal_fields priv).contains (renameIdKey k) = false := by
    rw [hrn]
    exact hk2
  have hstrip : stripRogues (List.map (fun kf => renameIdKey kf.1) [(k, f)]) [(k, d)] =
      [(k, d)] := by
    simp only [List.map, hrn]
    unfold stripRogues
    simp
  constructor
  · have hfr := fieldResult_ok_of_validate (_get_internal_fields priv)
      (fun k' f' => f'.required || acontains k' [(k, d)]) [(k, d)] k f d
      hguard
      (by
        show (f.required || acontains (renameIdKey k) [(k, d)]) = true
        rw [hrn, hcont, Bool.or_true])
      hlook hd1 hd2 hkind
    unfold validate_class_fields _validate_helper
    rw [runFields_all_ok _ _ _ _ [(k, f)] []
      (fun kf hkf => by
        rw [List.mem_singleton] at hkf
        rw [hkf]
        exact hfr)]
    simp only [if_true]
    rw [hstrip]
  · have hfr := fieldResult_ok_of_validate (_get_internal_fields priv)
      (fun k' _ => acontains k' [(k, d)]) [(k, d)] k f d
      hguard
      (by
        show acontains (renameIdKey k) [(k, d)] = true
        rw [hrn]
        exact hcont)
      hlook hd1 hd2 hkind
    unfold validate_class_partial _validate_helper
    rw [runFields_all_ok _ _ _ _ [(k, f)] []
      (fun kf hkf => by
        rw [List.mem_singleton] at hkf
        rw [hkf]
        exact hfr)]
    simp only [if_true]
    rw [hstrip]

/-- A field with choices `['a']`, declared as attribute `tag`. -/
def exTagField : BaseField :=
  { field_name := some "tag", uniq_field := some "tag",
    choices := some [.vStr "a"] }

/-- C9 witness: the value `'b'` violates the choices set `['a']` (the
`_validate` wrapper rejects it) yet both engine helpers accept the input
with no failure recorded. -/
theorem C9_engine_bypasses_wrapper_witness :
    validate_class_fields [("tag", exTagField)] [] [("tag", .vStr "b")] false =
      .ok ([("tag", .vStr "b")], []) ∧
    validate_class_partial [("tag", exTagField)] [] [("tag", .vStr "b")] false =
      .ok ([("tag", .vStr "b")], []) := by
  exact C9_engine_bypasses_wrapper "tag" exTagField (.vStr "b") []
    (by decide) rfl rfl rfl rfl
    ⟨.typeError "__init__() takes at least 4 arguments (2 given)", rfl⟩

/-! Section: C2 — fail-fast whole-document validation vs aggregate helpers -/

theorem validate_cons_pass (f : BaseField) (v : Value) (l : List (BaseField × Value))
    (h : docFieldPasses (f, v) = true) :
    BaseDocument.validate ((f, v) :: l) = BaseDocument.validate l := by
  simp only [docFieldPasses] at h
  have heq : BaseDocument.validate ((f, v) :: l) =
      (if (isNotNone v && !(pyEq v (.vStr ""))) = true then
        match BaseField._validate f v with
        | .ok _ => BaseDocument.validate l
        | .error e =>
          if catchesInValidate e then
            .error (.shieldEx "Invalid value" f.field_name v)
          else .error e
      else if f.required = true then
        .error (.shieldEx "Required field missing" f.field_name v)
      else BaseDocument.validate l) := rfl
  rw [heq]
  by_cases hc : (isNotNone v && !(pyEq v (.vStr ""))) = true
  · rw [if_pos hc]
    rw [if_pos hc] at h
    rcases hv : BaseField._validate f v with e | u
    · rw [hv] at h
      exact absurd h (by simp)
    · rfl
  · rw [if_neg hc]
    rw [if_neg hc] at h
    have hreq : f.required = false := by simpa using h
    rw [hreq]
    simp only [Bool.false_eq_true, if_false]

theorem validate_append_passes (pre l : List (BaseField × Value))
    (hpre : ∀ fv ∈ pre, docFieldPasses fv = true) :
    BaseDocument.validate (pre ++ l) = BaseDocument.validate l := by
  induction pre with
  | nil => rfl
  | cons hd t ih =>
    obtain ⟨f, v⟩ := hd
    rw [List.cons_append, validate_cons_pass f v (t ++ l) (hpre (f, v) (by simp))]
    exact ih (fun fv hfv => hpre fv (by simp [hfv]))

/-- C2: whole-document validation is fail-fast — with every earlier field
passing, the first failing field value determines the raised exception and
the fields after it are never consulted — while the engine helpers run with
`validate_all=True` on a document with two invalid supplied values return
(without raising) the ordered list containing both per-field failures. -/
theorem C2_failfast_vs_aggregate
    (pre : List (BaseField × Value)) (f1 : BaseField) (v1 : Value)
    (rest : List (BaseField × Value)) (e1 : PyError)
    (n1 n2 : String) (g1 g2 : BaseField) (w1 w2 : Value) (d1 d2 : PyError)
    (priv : List String)
    (hpre : ∀ fv ∈ pre, docFieldPasses fv = true)
    (hv1 : (isNotNone v1 && !(pyEq v1 (.vStr ""))) = true)
    (hfail : BaseField._validate f1 v1 = .error e1)
    (hn1 : n1 ≠ "id") (hn2 : n2 ≠ "id") (hne : n1 ≠ n2)
    (hint1 : (_get_internal_fields priv).contains n1 = false)
    (hint2 : (_get_internal_fields priv).contains n2 = false)
    (hw1a : isNotNone w1 = true) (hw1b : isBlankStr w1 = false)
    (hw2a : isNotNone w2 = true) (hw2b : isBlankStr w2 = false)
    (hval1 : BaseField.validate g1 w1 = .error d1) (hs1 : isShieldEx d1 = true)
    (hval2 : BaseField.validate g2 w2 = .error d2) (hs2 : isShieldEx d2 = true) :
    BaseDocument.validate (pre ++ (f1, v1) :: rest) =
      .error (if catchesInValidate e1 then
        .shieldEx "Invalid value" f1.field_name v1 else e1) ∧
    validate_class_partial [(n1, g1), (n2, g2)] priv [(n1, w1), (n2, w2)] true =
      .ok ([(n1, w1), (n2, w2)], [d1, d2]) := by
  have hrn1 : renameIdKey n1 = n1 := by
    unfold renameIdKey
    rw [if_neg hn1]
  have hrn2 : renameIdKey n2 = n2 := by
    unfold renameIdKey
    rw [if_neg hn2]
  constructor
  · rw [validate_append_passes pre _ hpre]
    unfold BaseDocument.validate
    rw [if_pos hv1, hfail]
    cases hcx : catchesInValidate e1 with
    | true => simp only [hcx, if_true]
    | false => simp only [hcx, Bool.false_eq_true, if_false]
  · have hl1 : alookup (renameIdKey n1) [(n1, w1), (n2, w2)] = some w1 := by
      rw [hrn1]
      unfold alookup
      rw [if_pos rfl]
    have hl2 : alookup (renameIdKey n2) [(n1, w1), (n2, w2)] = some w2 := by
      rw [hrn2]
      unfold alookup
      rw [if_neg hne]
      unfold alookup
      rw [if_pos rfl]
    have hfr1 := fieldResult_some_of_shieldEx (_get_internal_fields priv)
      (fun k _ => acontains k [(n1, w1), (n2, w2)]) [(n1, w1), (n2, w2)] n1 g1 w1 d1
      (by rw [hrn1]; exact hint1)
      (by
        show acontains (renameIdKey n1) [(n1, w1), (n2, w2)] = true
        unfold acontains
        rw [hl1]
        rfl)
      hl1 hw1a hw1b hval1 hs1
    have hfr2 := fieldResult_some_of_shieldEx (_get_internal_fields priv)
      (fun k _ => acontains k [(n1, w1), (n2, w2)]) [(n1, w1), (n2, w2)] n2 g2 w2 d2
      (by rw [hrn2]; exact hint2)
      (by
        show acontains (renameIdKey n2) [(n1, w1), (n2, w2)] = true
        unfold acontains
        rw [hl2]
        rfl)
      hl2 hw2a hw2b hval2 hs2
    have hrun : runFields (_get_internal_fields priv)
        (fun k _ => acontains k [(n1, w1), (n2, w2)]) [(n1, w1), (n2, w2)] true
        [(n1, g1), (n2, g2)] [] = .ok [d1, d2] := by
      unfold runFields
      rw [hfr1]
      simp only [if_true, List.nil_append]
      unfold runFields
      rw [hfr2]
      simp only [if_true]
      rfl
    have hstrip : stripRogues
        (List.map (fun kf => renameIdKey kf.1) [(n1, g1), (n2, g2)])
        [(n1, w1), (n2, w2)] = [(n1, w1), (n2, w2)] := by
      simp only [List.map, hrn1, hrn2]
      unfold stripRogues
      simp only [List.isEmpty, Bool.false_eq_true, if_false]
      rw [List.filter_cons, List.filter_cons]
      simp
    unfold validate_class_partial _validate_helper
    rw [hrun]
    simp only [if_true]
    rw [hstrip]

/-- A `UUIDField` declared as attribute `u1`. -/
def exU1Field : BaseField :=
  { kind := .uuidKind, field_name := some "u1", uniq_field := some "u1" }

/-- A `UUIDField` declared as attribute `u2`. -/
def exU2Field : BaseField :=
  { kind := .uuidKind, field_name := some "u2", uniq_field := some "u2" }

/-- C2 witness: a document holding two non-UUID strings in its two
`UUIDField`s — whole-document validation raises the first field's
exception only, while the aggregate partial helper returns both failures
in order and succeeds. -/
theorem C2_failfast_vs_aggregate_witness :
    BaseDocument.validate [(exU1Field, .vStr "zzz"), (exU2Field, .vStr "yyy")] =
      .error (.shieldEx "Not a valid UUID value" (some "u1") (.vStr "zzz")) ∧
    validate_class_partial [("u1", exU1Field), ("u2", exU2Field)] []
      [("u1", .vStr "zzz"), ("u2", .vStr "yyy")] true =
      .ok ([("u1", .vStr "zzz"), ("u2", .vStr "yyy")],
        [.shieldEx "Not a valid UUID value" (some "u1") (.vStr "zzz"),
         .shieldEx "Not a valid UUID value" (some "u2") (.vStr "yyy")]) := by
  have h := C2_failfast_vs_aggregate [] exU1Field (.vStr "zzz")
    [(exU2Field, .vStr "yyy")]
    (.shieldEx "Not a valid UUID value" (some "u1") (.vStr "zzz"))
    "u1" "u2" exU1Field exU2Field (.vStr "zzz") (.vStr "yyy")
    (.shieldEx "Not a valid UUID value" (some "u1") (.vStr "zzz"))
    (.shieldEx "Not a valid UUID value" (some "u2") (.vStr "yyy")) []
    (fun fv hfv => absurd hfv (List.not_mem_nil fv))
    rfl rfl (by decide) (by decide) (by decide) rfl rfl
    rfl rfl rfl rfl rfl rfl rfl rfl
  exact ⟨h.1, h.2⟩

/-! Section: C6 — owner-safe projection -/

theorem ownersafe_keys (internal : List String) :
    ∀ (dict out : List (String × Value)),
      ownersafeEntries internal dict = .ok out →
      ∀ kv ∈ out, internal.contains kv.1 = false := by
  intro dict
  induction dict with
  | nil =>
    intro out hok kv hkv
    simp only [ownersafeEntries, Except.ok.injEq] at hok
    subst hok
    exact absurd hkv (List.not_mem_nil kv)
  | cons hd t ih =>
    intro out hok kv hkv
    obtain ⟨k, v⟩ := hd
    simp only [ownersafeEntries] at hok
    by_cases hk : internal.contains k = true
    · rw [if_pos hk] at hok
      exact ih out hok kv hkv
    · rw [if_neg hk] at hok
      rcases hv : ownersafeValue v with e | v'
      · rw [hv] at hok
        exact absurd hok (by simp)
      · rw [hv] at hok
        rcases hr : ownersafeEntries internal t with e | rest'
        · rw [hr] at hok
          exact absurd hok (by simp)
        · rw [hr] at hok
          simp only [Except.ok.injEq] at hok
          subst hok
          rcases List.mem_cons.mp hkv with h1 | h1
          · rw [h1]
            simpa using hk
          · exact ih rest' hr kv h1

theorem ownersafe_retained (internal : List String) :
    ∀ (dict out : List (String × Value)),
      ownersafeEntries internal dict = .ok out →
      ∀ k v, (k, v) ∈ dict → internal.contains k = false →
      ∃ v', ownersafeValue v = .ok v' ∧ (k, v') ∈ out := by
  intro dict
  induction dict with
  | nil =>
    intro out _ k v hmem _
    exact absurd hmem (List.not_mem_nil (k, v))
  | cons hd t ih =>
    intro out hok k v hmem hkint
    obtain ⟨k0, v0⟩ := hd
    simp only [ownersafeEntries] at hok
    rcases List.mem_cons.mp hmem with heq | hmem'
    · injection heq with hk0 hv0
      subst hk0
      subst hv0
      rw [if_neg (by rw [hkint]; simp)] at hok
      rcases hv : ownersafeValue v with e | v'
      · rw [hv] at hok
        exact absurd hok (by simp)
      · rw [hv] at hok
        rcases hr : ownersafeEntries internal t with e | rest'
        · rw [hr] at hok
          exact absurd hok (by simp)
        · rw [hr] at hok
          simp only [Except.ok.injEq] at hok
          subst hok
          exact ⟨v', rfl, List.mem_cons_self (k, v') rest'⟩
    · by_cases hk0 : internal.contains k0 = true
      · rw [if_pos hk0] at hok
        exact ih out hok k v hmem' hkint
      · rw [if_neg hk0] at hok
        rcases hv0 : ownersafeValue v0 with e | v0'
        · rw [hv0] at hok
          exact absurd hok (by simp)
        · rw [hv0] at hok
          rcases hr : ownersafeEntries internal t with e | rest'
          · rw [hr] at hok
            exact absurd hok (by simp)
          · rw [hr] at hok
            simp only [Except.ok.injEq] at hok
            subst hok
            obtain ⟨v', h1, h2⟩ := ih rest' hr k v hmem' hkint
            exact ⟨v', h1, List.mem_cons_of_mem (k0, v0') h2⟩

/-- C6: a successful `make_ownersafe` removes every key of the class's
internal-field set from the mapping (no surviving entry carries such a
key); every retained embedded-document value is replaced by that nested
type's own owner-safe projection of its export; and a retained non-empty
list headed by an embedded document is projected elementwise the same
way. -/
theorem C6_ownersafe_blacklist (internal : List String)
    (dict out : List (String × Value))
    (hok : make_ownersafe internal dict = .ok out) :
    (∀ kv ∈ out, internal.contains kv.1 = false) ∧
    (∀ k i d, (k, Value.vDoc i d) ∈ dict → internal.contains k = false →
      ∃ d', make_ownersafe i d = .ok d' ∧ (k, Value.vDict d') ∈ out) ∧
    (∀ k x t, (k, Value.vList (x :: t)) ∈ dict → internal.contains k = false →
      isEmbeddedDoc x = true →
      ∃ l', ownersafeList (x :: t) = .ok l' ∧ (k, Value.vList l') ∈ out) := by
  refine ⟨ownersafe_keys internal dict out hok, ?_, ?_⟩
  · intro k i d hmem hkint
    obtain ⟨v', hov, hout⟩ := ownersafe_retained internal dict out hok k _ hmem hkint
    rcases hE : ownersafeEntries i d with e | d'
    · rw [ownersafeValue, hE] at hov
      exact absurd hov (by simp)
    · rw [ownersafeValue, hE] at hov
      simp only [Except.ok.injEq] at hov
      subst hov
      exact ⟨d', hE, hout⟩
  · intro k x t hmem hkint hemb
    obtain ⟨v', hov, hout⟩ := ownersafe_retained internal dict out hok k _ hmem hkint
    rw [ownersafeValue, if_pos hemb] at hov
    rcases hL : ownersafeList (x :: t) with e | l'
    · rw [hL] at hov
      exact absurd hov (by simp)
    · rw [hL] at hov
      simp only [Except.ok.injEq] at hov
      subst hov
      exact ⟨l', rfl, hout⟩

/-- C6 witness: the claim's example — exporting
`{_id: "u1", _cls: "User", name: "Bob", ssn: "123-45-6789"}` for a class
whose author declared `ssn` private yields exactly `{name: "Bob"}`, and no
key of the computed internal set survives. -/
theorem C6_ownersafe_blacklist_witness :
    make_ownersafe (_get_internal_fields ["ssn"])
      [("_id", .vStr "u1"), ("_cls", .vStr "User"),
       ("name", .vStr "Bob"), ("ssn", .vStr "123-45-6789")] =
      .ok [("name", .vStr "Bob")] ∧
    (∀ kv ∈ [(("name" : String), Value.vStr "Bob")],
      (_get_internal_fields ["ssn"]).contains kv.1 = false) := by
  have h := C6_ownersafe_blacklist (_get_internal_fields ["ssn"])
    [("_id", .vStr "u1"), ("_cls", .vStr "User"),
     ("name", .vStr "Bob"), ("ssn", .vStr "123-45-6789")]
    [("name", .vStr "Bob")] rfl
  exact ⟨rfl, h.1⟩

/-! Section: C5 — inheritance field union, override, discriminator chain -/

theorem acontains_aupdateAll_mono {α : Type} (src : List (String × α)) :
    ∀ (d : List (String × α)) (k : String),
      acontains k d = true → acontains k (aupdateAll d src) = true := by
  induction src with
  | nil => intro d k h; exact h
  | cons hd t ih =>
    intro d k h
    obtain ⟨k0, w⟩ := hd
    show acontains k (aupdateAll (aupdate d k0 w) t) = true
    exact ih (aupdate d k0 w) k (acontains_aupdate_of d k0 k w h)

theorem acontains_aupdateAll_src {α : Type} (src : List (String × α)) :
    ∀ (d : List (String × α)) (k : String),
      acontains k src = true → acontains k (aupdateAll d src) = true := by
  induction src with
  | nil =>
    intro d k h
    simp [acontains, alookup] at h
  | cons hd t ih =>
    intro d k h
    obtain ⟨k0, w⟩ := hd
    show acontains k (aupdateAll (aupdate d k0 w) t) = true
    by_cases hk : k0 = k
    · subst hk
      exact acontains_aupdateAll_mono t (aupdate d k0 w) k0
        (acontains_aupdate_self d k0 w)
    · have ht : acontains k t = true := by
        unfold acontains alookup at h
        rw [if_neg hk] at h
        exact h
      exact ih (aupdate d k0 w) k ht

theorem acontains_applyAttrs_of (attrs : List (String × BaseField)) :
    ∀ (d : List (String × BaseField)) (k : String),
      acontains k d = true → acontains k (applyAttrs d attrs) = true := by
  induction attrs with
  | nil => intro d k h; exact h
  | cons hd t ih =>
    intro d k h
    obtain ⟨k0, f0⟩ := hd
    show acontains k (applyAttrs (aupdate d k0 (assignFieldName k0 f0)) t) = true
    exact ih _ k (acontains_aupdate_of d k0 k _ h)

theorem alookup_applyAttrs_not_mem (attrs : List (String × BaseField)) :
    ∀ (d : List (String × BaseField)) (k : String),
      k ∉ attrs.map Prod.fst →
      alookup k (applyAttrs d attrs) = alookup k d := by
  induction attrs with
  | nil => intro d k _; rfl
  | cons hd t ih =>
    intro d k hk
    obtain ⟨k0, f0⟩ := hd
    have hne : k ≠ k0 := by
      intro heq
      exact hk (by simp [heq])
    have ht : k ∉ t.map Prod.fst := by
      intro hmem
      exact hk (by simp [hmem])
    show alookup k (applyAttrs (aupdate d k0 (assignFieldName k0 f0)) t) = alookup k d
    rw [ih _ k ht, alookup_aupdate_ne d k0 k _ hne]

theorem alookup_applyAttrs_mem (attrs : List (String × BaseField)) :
    ∀ (d : List (String × BaseField)) (k : String) (f : BaseField),
      (k, f) ∈ attrs → (attrs.map Prod.fst).Nodup →
      alookup k (applyAttrs d attrs) = some (assignFieldName k f) := by
  induction attrs with
  | nil =>
    intro d k f hmem _
    exact absurd hmem (List.not_mem_nil (k, f))
  | cons hd t ih =>
    intro d k f hmem hnodup
    obtain ⟨k0, f0⟩ := hd
    rw [List.map_cons, List.nodup_cons] at hnodup
    rcases List.mem_cons.mp hmem with heq | hmem'
    · injection heq with hk hf
      subst hk
      subst hf
      show alookup k (applyAttrs (aupdate d k (assignFieldName k f)) t) = _
      rw [alookup_applyAttrs_not_mem t _ k hnodup.1]
      exact alookup_aupdate_self d k _
    · show alookup k (applyAttrs (aupdate d k0 (assignFieldName k0 f0)) t) = _
      exact ih _ k f hmem' hnodup.2

/-- C5: composing a subclass over a non-mixin, subclassable base merges the
base's whole field mapping into the subclass schema (key superset), lets a
locally redeclared name override the inherited descriptor (the composed
mapping binds every locally declared name to the local descriptor, with its
`field_name`/`uniq_field` assigned), and sets the discriminator to the
base's dotted chain extended by the subclass's own name. -/
theorem C5_inheritance_union (name : String) (b : Schema)
    (attrs : List (String × BaseField)) (dm : MetaDecl)
    (hai : b.meta.allow_inheritance = true)
    (hmix : b.meta.mixin = false)
    (hdm : dm.allow_inheritance.getD true = true)
    (hnodup : (attrs.map Prod.fst).Nodup) :
    ∃ s, documentMetaclassNew name [b] attrs dm = .ok s ∧
      (∀ k, acontains k b._fields = true → acontains k s._fields = true) ∧
      (∀ k f, (k, f) ∈ attrs → alookup k s._fields = some (assignFieldName k f)) ∧
      s._class_name = b._class_name ++ "." ++ name := by
  have hcb : composeBase
      { doc_fields := [], class_name := [name], supers := [], simple_class := true }
      b = .ok
      { doc_fields := aupdateAll [] b._fields,
        class_name := [name, b._class_name],
        supers := mergeSupers (insertUniqueStr [] b._class_name) b._superclasses,
        simple_class := false } := by
    unfold composeBase
    rw [hai, hmix]
    simp
  have hfold : List.foldlM composeBase
      { doc_fields := [], class_name := [name], supers := [], simple_class := true }
      [b] = .ok
      { doc_fields := aupdateAll [] b._fields,
        class_name := [name, b._class_name],
        supers := mergeSupers (insertUniqueStr [] b._class_name) b._superclasses,
        simple_class := false } := by
    simp only [List.foldlM, hcb]
    rfl
  have hmain : documentMetaclassNew name [b] attrs dm = .ok
      { _class_name := joinDot [name, b._class_name].reverse,
        _superclasses := mergeSupers (insertUniqueStr [] b._class_name) b._superclasses,
        _fields := applyAttrs (aupdateAll [] b._fields) attrs,
        meta := { allow_inheritance := dm.allow_inheritance.getD true,
                  mixin := dm.mixin, collection := dm.collection,
                  id_field := none } } := by
    unfold documentMetaclassNew
    rw [hfold]
    simp only [hdm]
    simp
  refine ⟨_, hmain, ?_, ?_, ?_⟩
  · intro k hk
    exact acontains_applyAttrs_of attrs _ k (acontains_aupdateAll_src b._fields [] k hk)
  · intro k f hmem
    exact alookup_applyAttrs_mem attrs _ k f hmem hnodup
  · show joinDot [name, b._class_name].reverse = b._class_name ++ "." ++ name
    rfl

/-- A composed base class `B` with chain `A.B`, fields `x` and `y`. -/
def exParentSchema : Schema :=
  { _class_name := "A.B", _superclasses := ["A"],
    _fields := [("x", { field_name := some "x", uniq_field := some "x" }),
                ("y", { field_name := some "y", uniq_field := some "y" })],
    meta := {} }

/-- A local redeclaration of `y` (now required). -/
def exOverrideY : BaseField := { required := true }

/-- A new local field `z`. -/
def exNewZ : BaseField := {}

/-- C5 witness: subclass `C` of `A.B` redeclaring `y` and adding `z` keeps
all inherited keys, binds `y` to the local descriptor, and has
discriminator `A.B` extended by `.C`. -/
theorem C5_inheritance_union_witness :
    ∃ s, documentMetaclassNew "C" [exParentSchema]
        [("y", exOverrideY), ("z", exNewZ)] {} = .ok s ∧
      (∀ k, acontains k exParentSchema._fields = true →
        acontains k s._fields = true) ∧
      (∀ k f, (k, f) ∈ [("y", exOverrideY), ("z", exNewZ)] →
        alookup k s._fields = some (assignFieldName k f)) ∧
      s._class_name = exParentSchema._class_name ++ "." ++ "C" := by
  exact C5_inheritance_union "C" exParentSchema [("y", exOverrideY), ("z", exNewZ)]
    {} rfl rfl rfl (by simp)

/-! Section: C4 — identity auto-generation: supporting lemmas -/

theorem mem_applyAttrs (attrs : List (String × BaseField)) :
    ∀ (d : List (String × BaseField)) (kv : String × BaseField),
      kv ∈ applyAttrs d attrs →
      kv ∈ d ∨ ∃ kf ∈ attrs, kv = (kf.1, assignFieldName kf.1 kf.2) := by
  induction attrs with
  | nil => intro d kv h; exact Or.inl h
  | cons hd t ih =>
    intro d kv h
    obtain ⟨k0, f0⟩ := hd
    rcases ih (aupdate d k0 (assignFieldName k0 f0)) kv h with h1 | h1
    · rcases mem_aupdate d k0 _ kv h1 with h2 | h2
      · exact Or.inl h2
      · exact Or.inr ⟨(k0, f0), by simp, by simp [h2]⟩
    · obtain ⟨kf, hkf, heq⟩ := h1
      exact Or.inr ⟨kf, by simp [hkf], heq⟩

theorem acontains_iff_exists {α : Type} (k : String) :
    ∀ (l : List (String × α)), acontains k l = true ↔ ∃ v, (k, v) ∈ l := by
  intro l
  induction l with
  | nil =>
    constructor
    · intro h
      simp [acontains, alookup] at h
    · intro ⟨v, hv⟩
      exact absurd hv (List.not_mem_nil (k, v))
  | cons hd t ih =>
    obtain ⟨k0, v0⟩ := hd
    by_cases hk : k0 = k
    · subst hk
      constructor
      · intro _
        exact ⟨v0, by simp⟩
      · intro _
        unfold acontains alookup
        rw [if_pos rfl]
        rfl
    · have hstep : acontains k ((k0, v0) :: t) = acontains k t := by
        unfold acontains
        have hl : alookup k ((k0, v0) :: t) = alookup k t := by
          show (if k0 = k then some v0 else alookup k t) = alookup k t
          rw [if_neg hk]
        rw [hl]
      rw [hstep, ih]
      constructor
      · intro ⟨v, hv⟩
        exact ⟨v, List.mem_cons_of_mem (k0, v0) hv⟩
      · intro ⟨v, hv⟩
        rcases List.mem_cons.mp hv with h1 | h1
        · injection h1 with h2 _
          exact absurd h2.symm hk
        · exact ⟨v, h1⟩

theorem scanIdField_none : ∀ (L : List (String × BaseField)) (c : Option String),
    (∀ kf ∈ L, kf.2.id_field = false) → scanIdField c L = .ok c := by
  intro L
  induction L with
  | nil => intro c _; rfl
  | cons hd t ih =>
    intro c h
    obtain ⟨k, f⟩ := hd
    have hf : f.id_field = false := h (k, f) (by simp)
    show scanIdField c ((k, f) :: t) = .ok c
    unfold scanIdField
    rw [hf]
    simp only [Bool.false_eq_true, if_false]
    exact ih c (fun kf hkf => h kf (by simp [hkf]))

theorem initDefaults_append : ∀ (L1 L2 : List (String × BaseField)) (d : DocData) (g : Nat),
    initDefaults (L1 ++ L2) d g =
      (match initDefaults L1 d g with
       | .error e => .error e
       | .ok (d', g') => initDefaults L2 d' g') := by
  intro L1
  induction L1 with
  | nil => intro L2 d g; rfl
  | cons hd t ih =>
    intro L2 d g
    obtain ⟨k, f⟩ := hd
    have lhs_eq : initDefaults (((k, f) :: t) ++ L2) d g =
        (match fieldSet f d (fieldGet d f) g with
         | .error e => .error e
         | .ok (d', g') => initDefaults (t ++ L2) d' g') := rfl
    have rhs_eq : initDefaults ((k, f) :: t) d g =
        (match fieldSet f d (fieldGet d f) g with
         | .error e => .error e
         | .ok (d', g') => initDefaults t d' g') := rfl
    rw [lhs_eq, rhs_eq]
    rcases hs : fieldSet f d (fieldGet d f) g with e | p
    · rfl
    · obtain ⟨d', g'⟩ := p
      exact ih L2 d' g'

theorem initDefaults_fresh : ∀ (L : List (String × BaseField)) (d : DocData) (g : Nat),
    (∀ kf ∈ L, kf.2.field_name = some kf.1) →
    (∀ kf ∈ L, kf.2.kind = .base ∨ kf.2.default = .vNone) →
    (∀ kf ∈ L, olookup (some kf.1) d = none) →
    (L.map Prod.fst).Nodup →
    ∃ d' g', initDefaults L d g = .ok (d', g') ∧ olookup none d' = olookup none d := by
  intro L
  induction L with
  | nil => intro d g _ _ _ _; exact ⟨d, g, rfl, rfl⟩
  | cons hd t ih =>
    intro d g hname hkind hfresh hnodup
    obtain ⟨k, f⟩ := hd
    have hf : f.field_name = some k := hname (k, f) (by simp)
    have hfr : olookup (some k) d = none := hfresh (k, f) (by simp)
    rw [List.map_cons, List.nodup_cons] at hnodup
    have hget : fieldGet d f = f.default := by
      unfold fieldGet
      rw [hf, hfr]
    have hset : ∃ w g1, fieldSet f d (fieldGet d f) g = .ok (oupdate d (some k) w, g1) := by
      rcases hkind (k, f) (by simp) with hbase | hdef
      · refine ⟨fieldGet d f, g, ?_⟩
        unfold fieldSet
        rw [hbase, hf]
      · rw [hget, hdef]
        cases hkd : f.kind with
        | base =>
          refine ⟨.vNone, g, ?_⟩
          unfold fieldSet
          rw [hkd, hf]
        | uuidKind =>
          refine ⟨.vUUID (uuidGen g), g + 1, ?_⟩
          unfold fieldSet
          rw [hkd, hf]
          rfl
    obtain ⟨w, g1, hset⟩ := hset
    have htail_fresh : ∀ kf ∈ t, olookup (some kf.1) (oupdate d (some k) w) = none := by
      intro kf hkf
      have hne : kf.1 ≠ k := by
        intro heq
        exact hnodup.1 (by rw [← heq]; exact List.mem_map.mpr ⟨kf, hkf, rfl⟩)
      rw [olookup_oupdate_ne d (some k) (some kf.1) w (by simp [hne])]
      exact hfresh kf (by simp [hkf])
    obtain ⟨d', g', heq, hnone⟩ := ih (oupdate d (some k) w) g1
      (fun kf hkf => hname kf (by simp [hkf]))
      (fun kf hkf => hkind kf (by simp [hkf]))
      htail_fresh hnodup.2
    refine ⟨d', g', ?_, ?_⟩
    · have hstep : initDefaults ((k, f) :: t) d g =
          (match fieldSet f d (fieldGet d f) g with
           | .error e => .error e
           | .ok (d1, g1) => initDefaults t d1 g1) := rfl
      rw [hstep, hset]
      exact heq
    · rw [hnone, olookup_oupdate_ne d (some k) none w (by simp)]

theorem fieldGet_of_lookup_none (d : DocData) (f : BaseField)
    (h : olookup f.field_name d = none) : fieldGet d f = f.default := by
  unfold fieldGet
  rw [h]

theorem fieldGet_of_lookup_some (d : DocData) (f : BaseField) (v : Value)
    (h : olookup f.field_name d = some v) (hv : isNotNone v = true) :
    fieldGet d f = v := by
  unfold fieldGet
  simp [h, hv]

theorem alookup_exportCls (s : Schema) (base : List (String × Value)) :
    alookup "_id" (exportCls s base) = alookup "_id" base := by
  unfold exportCls
  cases hal : s.meta.allow_inheritance with
  | true =>
    rw [if_pos rfl]
    rw [alookup_aupdate_ne _ _ _ _ (by decide), alookup_aupdate_ne _ _ _ _ (by decide)]
  | false =>
    rw [if_neg (by simp)]

theorem exportTrim_of_truthy (data : List (String × Value)) (v : Value)
    (h : alookup "_id" data = some v) (ht : pyTruthy v = true) :
    exportTrim data = data := by
  unfold exportTrim
  simp [h, ht]

theorem keys_aupdate {α : Type} (l : List (String × α)) (k : String) (v : α) :
    (aupdate l k v).map Prod.fst =
      if acontains k l then l.map Prod.fst else l.map Prod.fst ++ [k] := by
  induction l with
  | nil => simp [aupdate, acontains, alookup]
  | cons hd t ih =>
    obtain ⟨k0, v0⟩ := hd
    by_cases hk : k0 = k
    · subst hk
      simp [aupdate, acontains, alookup]
    · have hc : acontains k ((k0, v0) :: t) = acontains k t := by
        unfold acontains
        have hl : alookup k ((k0, v0) :: t) = alookup k t := by
          show (if k0 = k then some v0 else alookup k t) = alookup k t
          rw [if_neg hk]
        rw [hl]
      rw [hc]
      have ha : aupdate ((k0, v0) :: t) k v = (k0, v0) :: aupdate t k v := by
        show (if k0 = k then (k0, v) :: t else (k0, v0) :: aupdate t k v) = _
        rw [if_neg hk]
      rw [ha, List.map_cons, ih]
      by_cases ht : acontains k t = true
      · rw [ht]
        simp
      · rw [Bool.not_eq_true] at ht
        rw [ht]
        simp

theorem not_mem_keys_of_not_contains {α : Type} (l : List (String × α)) (k : String)
    (h : acontains k l = false) : k ∉ l.map Prod.fst := by
  intro hmem
  rw [List.mem_map] at hmem
  obtain ⟨kv, hkv, heq⟩ := hmem
  have : acontains k l = true := (acontains_iff_exists k l).mpr ⟨kv.2, by
    rw [← heq]
    exact hkv⟩
  rw [h] at this
  exact Bool.noConfusion this

theorem nodup_keys_aupdate {α : Type} (l : List (String × α)) (k : String) (v : α)
    (h : (l.map Prod.fst).Nodup) : ((aupdate l k v).map Prod.fst).Nodup := by
  rw [keys_aupdate]
  cases hc : acontains k l with
  | true => simpa using h
  | false =>
    simp only [Bool.false_eq_true, if_false]
    rw [List.nodup_append]
    exact ⟨h, List.nodup_singleton k,
      by simpa using not_mem_keys_of_not_contains l k hc⟩

theorem nodup_keys_applyAttrs (attrs : List (String × BaseField)) :
    ∀ (d : List (String × BaseField)), (d.map Prod.fst).Nodup →
      ((applyAttrs d attrs).map Prod.fst).Nodup := by
  induction attrs with
  | nil => intro d h; exact h
  | cons hd t ih =>
    intro d h
    obtain ⟨k0, f0⟩ := hd
    exact ih _ (nodup_keys_aupdate d k0 _ h)

theorem init_noseed (s : Schema) (g : Nat) :
    BaseDocument.init s [] g = initDefaults s._fields [] g := by
  unfold BaseDocument.init
  rcases h : initDefaults s._fields [] g with e | p
  · rfl
  · obtain ⟨d, g'⟩ := p
    rfl

theorem to_python_id_lookup (s : Schema) (d : DocData) (u : String)
    (hlast : alookup "_id" (s._fields.foldl (exportField d) []) = some (.vUUID u)) :
    alookup "_id" (to_python s d) = some (.vUUID u) := by
  unfold to_python _to_fields
  rw [exportTrim_of_truthy _ (.vUUID u) (by rw [alookup_exportCls]; exact hlast) rfl]
  rw [alookup_exportCls]
  exact hlast

/-- C4: a top-level (collection-backed) document type declaring no identity
field gets exactly one synthesized identity field, named `id`, of UUID kind
and exported under the reserved key `_id`, recorded as the type's id field;
and constructing an instance with no identity input (empty seed) leaves
that field holding a freshly generated UUID, so the `to_python` export
carries `_id` with a truthy UUID value. -/
theorem C4_identity_autogen (name : String) (attrs : List (String × BaseField))
    (dm : MetaDecl)
    (hid : ∀ kf ∈ attrs, kf.2.id_field = false)
    (hname : ∀ kf ∈ attrs, kf.1 ≠ "id")
    (hkind : ∀ kf ∈ attrs, kf.2.kind = .base ∨ kf.2.default = .vNone) :
    ∃ s, topLevelDocumentMetaclassNew name [] attrs dm = .ok s ∧
      alookup "id" s._fields = some synthesizedIdField ∧
      synthesizedIdField.kind = .uuidKind ∧
      synthesizedIdField.uniq_field = some "_id" ∧
      countKey s._fields "id" = 1 ∧
      s.meta.id_field = some "id" ∧
      (∀ g : Nat, ∃ d g' u, BaseDocument.init s [] g = .ok (d, g') ∧
        olookup none d = some (.vUUID u) ∧
        alookup "_id" (to_python s d) = some (.vUUID u) ∧
        pyTruthy (.vUUID u) = true) := by
  have hP : ∀ kv ∈ applyAttrs ([] : List (String × BaseField)) attrs,
      ∃ kf ∈ attrs, kv = (kf.1, assignFieldName kf.1 kf.2) := by
    intro kv h
    rcases mem_applyAttrs attrs [] kv h with h1 | h1
    · exact absurd h1 (List.not_mem_nil kv)
    · exact h1
  have hPname : ∀ kv ∈ applyAttrs ([] : List (String × BaseField)) attrs,
      kv.1 ≠ "id" := by
    intro kv h
    obtain ⟨kf, hkf, heq⟩ := hP kv h
    rw [heq]
    exact hname kf hkf
  have hPid : ∀ kv ∈ applyAttrs ([] : List (String × BaseField)) attrs,
      kv.2.id_field = false := by
    intro kv h
    obtain ⟨kf, hkf, heq⟩ := hP kv h
    rw [heq]
    exact hid kf hkf
  have hPfn : ∀ kv ∈ applyAttrs ([] : List (String × BaseField)) attrs,
      kv.2.field_name = some kv.1 := by
    intro kv h
    obtain ⟨kf, hkf, heq⟩ := hP kv h
    rw [heq]
    rfl
  have hPkd : ∀ kv ∈ applyAttrs ([] : List (String × BaseField)) attrs,
      kv.2.kind = .base ∨ kv.2.default = .vNone := by
    intro kv h
    obtain ⟨kf, hkf, heq⟩ := hP kv h
    rw [heq]
    exact hkind kf hkf
  have hPnodup : ((applyAttrs ([] : List (String × BaseField)) attrs).map Prod.fst).Nodup :=
    nodup_keys_applyAttrs attrs [] (by simp)
  have hPfresh : ∀ kv ∈ applyAttrs ([] : List (String × BaseField)) attrs,
      olookup (some kv.1) [] = none := fun _ _ => rfl
  have hcid : acontains "id" (applyAttrs ([] : List (String × BaseField)) attrs) = false := by
    cases hc : acontains "id" (applyAttrs ([] : List (String × BaseField)) attrs) with
    | false => rfl
    | true =>
      obtain ⟨v, hv⟩ := (acontains_iff_exists "id" _).mp hc
      exact absurd rfl (hPname ("id", v) hv)
  have hfields_eq : aupdate (applyAttrs ([] : List (String × BaseField)) attrs) "id"
      synthesizedIdField =
      applyAttrs ([] : List (String × BaseField)) attrs ++ [("id", synthesizedIdField)] :=
    aupdate_not_contains _ "id" _ hcid
  have hscan : scanIdField none (applyAttrs ([] : List (String × BaseField)) attrs) =
      .ok none := scanIdField_none _ none hPid
  refine ⟨{ _class_name := name, _superclasses := [],
            _fields := aupdate (applyAttrs [] attrs) "id" synthesizedIdField,
            meta := { allow_inheritance := dm.allow_inheritance.getD true,
                      mixin := dm.mixin,
                      collection := some (dm.collection.getD name.toLower),
                      id_field := some "id" } }, ?_, ?_, rfl, rfl, ?_, rfl, ?_⟩
  · have hstep : topLevelDocumentMetaclassNew name [] attrs dm =
        (match scanIdField none (applyAttrs ([] : List (String × BaseField)) attrs) with
         | .error e => .error e
         | .ok (some c) =>
           .ok { _class_name := name, _superclasses := [],
                 _fields := applyAttrs [] attrs,
                 meta := { allow_inheritance := dm.allow_inheritance.getD true,
                           mixin := dm.mixin,
                           collection := some (dm.collection.getD name.toLower),
                           id_field := some c } }
         | .ok none =>
           .ok { _class_name := name, _superclasses := [],
                 _fields := aupdate (applyAttrs [] attrs) "id" synthesizedIdField,
                 meta := { allow_inheritance := dm.allow_inheritance.getD true,
                           mixin := dm.mixin,
                           collection := some (dm.collection.getD name.toLower),
                           id_field := some "id" } }) := rfl
    rw [hstep, hscan]
  · exact alookup_aupdate_self (applyAttrs [] attrs) "id" synthesizedIdField
  · show countKey (aupdate (applyAttrs [] attrs) "id" synthesizedIdField) "id" = 1
    rw [hfields_eq]
    unfold countKey
    rw [List.filter_append]
    have h0 : (applyAttrs ([] : List (String × BaseField)) attrs).filter
        (fun kv => kv.1 = "id") = [] := by
      rw [List.filter_eq_nil_iff]
      intro kv hkv
      simp only [decide_eq_true_eq]
      exact hPname kv hkv
    rw [h0]
    rfl
  · intro g
    obtain ⟨dP, gP, hdP, hnoneP⟩ :=
      initDefaults_fresh (applyAttrs [] attrs) [] g hPfn hPkd hPfresh hPnodup
    have hnone0 : olookup none dP = none := by
      rw [hnoneP]
      rfl
    have hg0 : fieldGet dP synthesizedIdField = Value.vNone :=
      fieldGet_of_lookup_none dP synthesizedIdField hnone0
    have hidstep : initDefaults [("id", synthesizedIdField)] dP gP =
        .ok (oupdate dP none (.vUUID (uuidGen gP)), gP + 1) := by
      have hs : initDefaults [("id", synthesizedIdField)] dP gP =
          (match fieldSet synthesizedIdField dP (fieldGet dP synthesizedIdField) gP with
           | .error e => .error e
           | .ok (d', g') => initDefaults [] d' g') := rfl
      rw [hs, hg0]
      rfl
    have hinitF : initDefaults (aupdate (applyAttrs [] attrs) "id" synthesizedIdField)
        [] g = .ok (oupdate dP none (.vUUID (uuidGen gP)), gP + 1) := by
      rw [hfields_eq, initDefaults_append, hdP]
      exact hidstep
    refine ⟨oupdate dP none (.vUUID (uuidGen gP)), gP + 1, uuidGen gP, ?_, ?_, ?_, rfl⟩
    · rw [init_noseed]
      exact hinitF
    · exact olookup_oupdate_self dP none _
    · have hgF : fieldGet (oupdate dP none (.vUUID (uuidGen gP))) synthesizedIdField =
          .vUUID (uuidGen gP) :=
        fieldGet_of_lookup_some _ _ _ (olookup_oupdate_self dP none _) rfl
      have hbase : (aupdate (applyAttrs [] attrs) "id" synthesizedIdField).foldl
          (exportField (oupdate dP none (.vUUID (uuidGen gP)))) [] =
          aupdate ((applyAttrs ([] : List (String × BaseField)) attrs).foldl
              (exportField (oupdate dP none (.vUUID (uuidGen gP)))) [])
            "_id" (.vUUID (uuidGen gP)) := by
        rw [hfields_eq, List.foldl_append, List.foldl_cons, List.foldl_nil]
        simp only [exportField]
        rw [hgF]
        rfl
      exact to_python_id_lookup _ _ (uuidGen gP)
        (by
          rw [hbase]
          exact alookup_aupdate_self _ "_id" _)

/-- C4 witness: the type `User` declaring only the plain field `name` gets
the synthesized `id` field and a construction with empty seed exports a
truthy generated `_id`. -/
theorem C4_identity_autogen_witness :
    ∃ s, topLevelDocumentMetaclassNew "User" [] [("name", exNameField)] {} = .ok s ∧
      alookup "id" s._fields = some synthesizedIdField ∧
      synthesizedIdField.kind = .uuidKind ∧
      synthesizedIdField.uniq_field = some "_id" ∧
      countKey s._fields "id" = 1 ∧
      s.meta.id_field = some "id" ∧
      (∀ g : Nat, ∃ d g' u, BaseDocument.init s [] g = .ok (d, g') ∧
        olookup none d = some (.vUUID u) ∧
        alookup "_id" (to_python s d) = some (.vUUID u) ∧
        pyTruthy (.vUUID u) = true) := by
  exact C4_identity_autogen "User" [("name", exNameField)] {}
    (by
      intro kf hkf
      rw [List.mem_singleton] at hkf
      rw [hkf]
      rfl)
    (by
      intro kf hkf
      rw [List.mem_singleton] at hkf
      rw [hkf]
      decide)
    (by
      intro kf hkf
      rw [List.mem_singleton] at hkf
      rw [hkf]
      exact Or.inl rfl)

/-- C7 witness: the amended equality characterization instantiated at the
two concrete instances. -/
theorem C7_eq_amended_witness :
    (BaseDocument.eq exObjA exObjB = .ok true ↔
      (isinstanceOf exObjB exObjA.clsName = true ∧ exObjB.hasId = true ∧
        exObjA.hasId = true ∧ pyEq exObjA.idVal exObjB.idVal = true)) ∧
    (exObjB.hasId = false → BaseDocument.eq exObjA exObjB = .ok false) :=
  C7_eq_amended exObjA exObjB
